import Mathlib

/-!
Shallow embedding of `src/search_engine.py` (BlackRoad search engine).

The sqlite tables become association lists keyed exactly like the
SQL primary keys; `self.indexes` becomes an association list from uid
to index metadata.  Wall-clock timestamps (`datetime.utcnow()`) become
a `now : Nat` parameter passed to each operation that reads the clock.
Python floats are modelled as exact real numbers; `math.log` is
`Real.log`.
-/

namespace Meili

/-- Error kinds raised by the engine (all are `ValueError` in the
source; distinguished here by their message as the spec does). -/
inductive Err where
  | notFound
  | alreadyExists
  | invalidDocument
deriving DecidableEq, Repr

/-- A JSON-like document field value, per the data model of the spec:
text, number, boolean, or ordered list of such values.  Numbers are
modelled as integers. -/
inductive Value where
  | str (s : String)
  | int (n : Int)
  | bool (b : Bool)
  | list (vs : List Value)

/-- Python `==` between field values.  Python `bool` is a subclass of
`int`, so `True == 1` holds; strings never equal numbers. -/
def pyEq : Value → Value → Bool
  | .str a, .str b => a == b
  | .int a, .int b => a == b
  | .bool a, .bool b => a == b
  | .bool a, .int b => (if a then (1 : Int) else 0) == b
  | .int a, .bool b => a == (if b then (1 : Int) else 0)
  | .list a, .list b => pyEqList a b
  | _, _ => false
where
  /-- Elementwise Python `==` on lists. -/
  pyEqList : List Value → List Value → Bool
  | [], [] => true
  | a :: as, b :: bs => pyEq a b && pyEqList as bs
  | _, _ => false

/-- Python `repr` of a value (strings quoted, `True`/`False`,
lists bracketed with comma-separated reprs).  String escaping inside
quotes is not modelled. -/
def pyRepr : Value → String
  | .str s => "'" ++ s ++ "'"
  | .int n => toString n
  | .bool b => if b then "True" else "False"
  | .list vs => "[" ++ String.intercalate ", " (pyReprList vs) ++ "]"
where
  /-- Reprs of the elements of a list value. -/
  pyReprList : List Value → List String
  | [] => []
  | v :: vs => pyRepr v :: pyReprList vs

/-- Python `str` of a value: the string itself for strings, `repr`
otherwise (which is what `str` gives for ints, bools and lists). -/
def pyStr : Value → String
  | .str s => s
  | v => pyRepr v

/-- A raw document: the ordered field mapping of a Python dict. -/
abbrev Doc := List (String × Value)

/-- First-match association-list lookup (dict access). -/
def alookup {κ β : Type} [DecidableEq κ] (k : κ) : List (κ × β) → Option β
  | [] => none
  | (k₁, v) :: rest => if k₁ = k then some v else alookup k rest

/-- Insert-or-replace keyed row (sqlite INSERT OR REPLACE, dict
assignment): replaces the value at the first occurrence of the key,
appends when the key is absent. -/
def upsert {κ β : Type} [DecidableEq κ] (k : κ) (v : β) : List (κ × β) → List (κ × β)
  | [] => [(k, v)]
  | (k₁, v₁) :: rest => if k₁ = k then (k, v) :: rest else (k₁, v₁) :: upsert k v rest

/-- Index metadata, mirroring the `Index` dataclass of the source. -/
structure Index where
  uid : String
  name : String
  primary_key : String
  created_at : Nat
  updated_at : Nat
  total_documents : Nat
  facets : List String := []
  ranking_rules : List String := ["typo", "words", "proximity", "attribute", "exactness"]
  searchable_attrs : List String := []
  filterable_attrs : List String := []
  sortable_attrs : List String := []
deriving DecidableEq, Repr

/-- Key of the `term_index` table: (index_uid, term, doc_id, field). -/
abbrev TermKey := String × String × String × String

/-- Engine state: the `indexes` dict plus the two sqlite tables the
core reads and writes (`index_documents` and `term_index`; the unused
`field_stats` table is dead storage and omitted). -/
structure Engine where
  indexes : List (String × Index)
  index_documents : List ((String × String) × Doc)
  term_index : List (TermKey × List Nat)

/-- The stopword set of `_tokenize`. -/
def stopwords : List String := ["the", "a", "an", "and", "or", "but", "in", "on", "at", "to", "for"]

/-- Whether a character matches Python regex `\w` (ASCII fragment):
alphanumeric or underscore. -/
def isWordChar (c : Char) : Bool := c.isAlphanum || c = '_'

/-- Maximal runs of word characters of the lowercased text, as in
`re.findall` applied after `text.lower()`. -/
def wordRuns (text : String) : List String :=
  (((text.data.map Char.toLower).splitOnP (fun c => !isWordChar c)).filter
    (fun cs => !cs.isEmpty)).map (fun cs => String.mk cs)

/-- `_tokenize`: lowercase, extract word runs, drop stopwords and
tokens of length at most 2. -/
def tokenize (text : String) : List String :=
  (wordRuns text).filter (fun t => !stopwords.contains t && t.length > 2)

/-- `create_index`: fails when the uid is taken, otherwise registers a
fresh index with the default field values of the dataclass. -/
def create_index (e : Engine) (uid : String) (primary_key : String) (name : Option String)
    (now : Nat) : Except Err Engine :=
  if (alookup uid e.indexes).isSome then .error .alreadyExists
  else
    let idx : Index :=
      { uid := uid, name := name.getD uid, primary_key := primary_key,
        created_at := now, updated_at := now, total_documents := 0 }
    .ok { e with indexes := upsert uid idx e.indexes }

/-- Document id derivation of `add_documents`:
`str(doc.get(primary_key, ""))`. -/
def docIdOf (primary_key : String) (doc : Doc) : String :=
  match alookup primary_key doc with
  | none => ""
  | some v => pyStr v

/-- Posting writes for one document: for every field except the
primary key, tokenize `str(value)`, let positions be `0..n-1`, and
INSERT OR REPLACE one `term_index` row per distinct term.  Python
iterates `set(terms)` in unspecified order; since the rows written
have pairwise distinct keys, the resulting table does not depend on
that order, and `terms.dedup` is used here. -/
def indexDocTerms (uid primary_key doc_id : String) (doc : Doc)
    (ti : List (TermKey × List Nat)) : List (TermKey × List Nat) :=
  doc.foldl
    (fun ti fv =>
      if fv.1 = primary_key then ti
      else
        let terms := tokenize (pyStr fv.2)
        let positions := List.range terms.length
        (terms.dedup).foldl (fun ti t => upsert (uid, t, doc_id, fv.1) positions ti) ti)
    ti

/-- The per-document loop of `add_documents`, threading the two
tables.  A missing or empty-stringifying primary-key field raises
`ValueError` (InvalidDocument), aborting the loop. -/
def addDocsLoop (uid primary_key : String) :
    List Doc → List ((String × String) × Doc) → List (TermKey × List Nat) →
    Except Err (List ((String × String) × Doc) × List (TermKey × List Nat))
  | [], dt, ti => .ok (dt, ti)
  | doc :: rest, dt, ti =>
    let doc_id := docIdOf primary_key doc
    if doc_id = "" then .error .invalidDocument
    else
      addDocsLoop uid primary_key rest
        (upsert (uid, doc_id) doc dt)
        (indexDocTerms uid primary_key doc_id doc ti)

/-- `add_documents`.  All sqlite writes of the call happen inside one
`with sqlite3.connect(...)` block; `sqlite3.Connection.__exit__`
commits the open transaction on normal exit and rolls it back when an
exception escapes the block, so a mid-batch `ValueError` discards the
INSERTs already executed for earlier documents of the same batch and
the call leaves the store unchanged (the in-memory counter and
timestamp updates sit after the loop and are skipped as well).  On
success the index counter grows by the batch length (even for re-added
ids) and `updated_at` is set to the call time. -/
def add_documents (e : Engine) (uid : String) (documents : List Doc) (now : Nat) :
    Except Err Engine :=
  match alookup uid e.indexes with
  | none => .error .notFound
  | some idx =>
    match addDocsLoop uid idx.primary_key documents e.index_documents e.term_index with
    | .error err => .error err
    | .ok (dt, ti) =>
      let idx₁ := { idx with
        total_documents := idx.total_documents + documents.length,
        updated_at := now }
      .ok { e with
        indexes := upsert uid idx₁ e.indexes,
        index_documents := dt,
        term_index := ti }

/-- Python `dict.update`: keys already present keep their position and
take the new value, new keys are appended in order. -/
def dictUpdate (doc partial_doc : Doc) : Doc :=
  partial_doc.foldl (fun d kv => upsert kv.1 kv.2 d) doc

/-- `update_document`: fetch the stored document (NotFound when the
index or the document is absent), shallow-merge the partial fields
over it, then re-add the merged document as a one-element batch. -/
def update_document (e : Engine) (uid doc_id : String) (partial_doc : Doc) (now : Nat) :
    Except Err Engine :=
  if (alookup uid e.indexes).isNone then .error .notFound
  else
    match alookup (uid, doc_id) e.index_documents with
    | none => .error .notFound
    | some doc => add_documents e uid [dictUpdate doc partial_doc] now

/-- `delete_document`: checks only that the index exists; the two
DELETE statements remove the raw document row and every posting of the
doc id (both no-ops when the id is absent), then the counter is
decremented with `max(0, ...)` (here by truncated Nat subtraction,
which is the same floor) and `updated_at` is set. -/
def delete_document (e : Engine) (uid doc_id : String) (now : Nat) : Except Err Engine :=
  match alookup uid e.indexes with
  | none => .error .notFound
  | some idx =>
    let idx₁ := { idx with
      total_documents := idx.total_documents - 1,
      updated_at := now }
    .ok { e with
      indexes := upsert uid idx₁ e.indexes,
      index_documents := e.index_documents.filter (fun r => !(r.1 = (uid, doc_id) : Bool)),
      term_index := e.term_index.filter (fun r => !(r.1.1 = uid && r.1.2.2.1 = doc_id)) }

/-- `get_document`: NotFound when the index is absent, otherwise the
stored raw document or `none`. -/
def get_document (e : Engine) (uid doc_id : String) : Except Err (Option Doc) :=
  if (alookup uid e.indexes).isNone then .error .notFound
  else .ok (alookup (uid, doc_id) e.index_documents)

/-- `set_searchable_attrs`: replaces the list (in memory and in the
`indexes` row); note that the source never touches `updated_at` here. -/
def set_searchable_attrs (e : Engine) (uid : String) (attrs : List String) :
    Except Err Engine :=
  match alookup uid e.indexes with
  | none => .error .notFound
  | some idx => .ok { e with indexes := upsert uid { idx with searchable_attrs := attrs } e.indexes }

/-- `set_filterable_attrs`: replaces the list; `updated_at` is not
touched by the source. -/
def set_filterable_attrs (e : Engine) (uid : String) (attrs : List String) :
    Except Err Engine :=
  match alookup uid e.indexes with
  | none => .error .notFound
  | some idx => .ok { e with indexes := upsert uid { idx with filterable_attrs := attrs } e.indexes }

/-- `set_sortable_attrs`: replaces the list; `updated_at` is not
touched by the source. -/
def set_sortable_attrs (e : Engine) (uid : String) (attrs : List String) :
    Except Err Engine :=
  match alookup uid e.indexes with
  | none => .error .notFound
  | some idx => .ok { e with indexes := upsert uid { idx with sortable_attrs := attrs } e.indexes }

/-- BM25 constant `self.k1 = 1.5`. -/
def k1 : ℚ := 3 / 2

/-- BM25 constant `self.b = 0.75`. -/
def b : ℚ := 3 / 4

/-- The fixed per-field weight table of `_bm25_score`. -/
def field_weights : List (String × ℚ) := [("title", 3), ("description", 2), ("body", 1)]

/-- `field_weights.get(field, 1.0)`. -/
def fieldWeight (f : String) : ℚ := (alookup f field_weights).getD 1

/-- Document frequency of a term:
`COUNT(DISTINCT doc_id) FROM term_index WHERE index_uid = ? AND term = ?`. -/
def docFreq (ti : List (TermKey × List Nat)) (uid term : String) : Nat :=
  (((ti.filter (fun r => r.1.1 = uid && r.1.2.1 = term)).map
    (fun r => r.1.2.2.1)).dedup).length

/-- Python `n_docs = index.total_documents or 1`: the counter with 1
substituted when it reads 0. -/
def nDocs (idx : Index) : Nat := if idx.total_documents = 0 then 1 else idx.total_documents

/-- `idf = math.log(n_docs / max(1, df))` of `_bm25_score`. -/
noncomputable def idfOf (ti : List (TermKey × List Nat)) (uid : String) (idx : Index)
    (term : String) : ℝ :=
  Real.log ((nDocs idx : ℝ) / (max 1 (docFreq ti uid term) : ℝ))

/-- The per-field summand of `_bm25_score`, added when the term
occurs in the field:
`weight * idf * (k1+1)*tf / (tf + k1*(1 - b + b*field_len))`. -/
noncomputable def fieldContribution (idf : ℝ) (term : String) (fv : String × Value) : ℝ :=
  let terms_in_field := tokenize (pyStr fv.2)
  let tf := terms_in_field.count term
  let field_len := terms_in_field.length
  (fieldWeight fv.1 : ℝ) * idf *
    (((k1 : ℝ) + 1) * tf / (tf + (k1 : ℝ) * (1 - (b : ℝ) + (b : ℝ) * field_len)))

/-- The per-term inner loop of `_bm25_score`: iterate the document
fields, skip the primary key and fields where the term count is 0,
and accumulate the field contribution. -/
noncomputable def termScore (ti : List (TermKey × List Nat)) (uid : String) (idx : Index)
    (term : String) (doc : Doc) (score : ℝ) : ℝ :=
  let idf := idfOf ti uid idx term
  doc.foldl
    (fun score fv =>
      if fv.1 = idx.primary_key then score
      else if 0 < (tokenize (pyStr fv.2)).count term then
        score + fieldContribution idf term fv
      else score)
    score

/-- `_bm25_score`: fold the per-term inner loop over the
(non-deduplicated) query terms starting from 0.  The unreachable case
of an unregistered uid (a `KeyError` in Python; `search` checks
existence first) is given the default 0.  Float arithmetic is
modelled exactly over the reals, with `math.log` as `Real.log`. -/
noncomputable def bm25_score (e : Engine) (uid : String) (terms : List String) (doc : Doc) : ℝ :=
  match alookup uid e.indexes with
  | none => 0
  | some idx =>
    terms.foldl (fun score term => termScore e.term_index uid idx term doc score) 0

/-- A filter mapping, as the `filters` dict of `search`. -/
abbrev Filters := List (String × Value)

/-- `_matches_filters`: every (field, expected) pair must pass; an
absent field fails; a list expectation is membership under Python
`==`; any other expectation is Python `==`. -/
def matches_filters (doc : Doc) (filters : Filters) : Bool :=
  filters.all (fun fv =>
    match alookup fv.1 doc with
    | none => false
    | some dv =>
      match fv.2 with
      | .list vs => vs.any (fun v => pyEq dv v)
      | _ => pyEq dv fv.2)

/-- `_apply_filters`: keep the scored entries whose document matches
all filters.  The document lookup cannot miss (the ids come from the
same table); an absent id is dropped as the total default. -/
def apply_filters (scores : List (String × ℝ)) (documents : List (String × Doc))
    (filters : Filters) : List (String × ℝ) :=
  scores.filter (fun p =>
    match alookup p.1 documents with
    | some doc => matches_filters doc filters
    | none => false)

/-- defaultdict-style increment of a string-keyed counter. -/
def bump (k : String) : List (String × Nat) → List (String × Nat)
  | [] => [(k, 1)]
  | (k₁, c) :: rest => if k₁ = k then (k₁, c + 1) :: rest else (k₁, c) :: bump k rest

/-- Counts of one facet field over a document list: every document
containing the field contributes 1 under the stringified value. -/
def facetCounts (documents : List (String × Doc)) (facet : String) : List (String × Nat) :=
  documents.foldl
    (fun acc p =>
      match alookup facet p.2 with
      | none => acc
      | some v => bump (pyStr v) acc)
    []

/-- `_compute_facets` over a document list and requested facet
fields. -/
def compute_facets (documents : List (String × Doc)) (facets : List String) :
    List (String × List (String × Nat)) :=
  facets.map (fun facet => (facet, facetCounts documents facet))

/-- The row set
`SELECT doc_id, document FROM index_documents WHERE index_uid = ?`,
as (doc id, document) pairs in table order. -/
def docsOf (e : Engine) (uid : String) : List (String × Doc) :=
  (e.index_documents.filter (fun r => r.1.1 = uid)).map (fun r => (r.1.2, r.2))

/-- The scoring stage of `search`: score every document of the index
and retain only strictly positive scores. -/
noncomputable def scoredDocs (e : Engine) (uid : String) (terms : List String) :
    List (String × ℝ) :=
  ((docsOf e uid).map (fun p => (p.1, bm25_score e uid terms p.2))).filter
    (fun p => decide (0 < p.2))

/-- The sorting stage of `search`:
`sorted(scores.items(), key=lambda x: x[1], reverse=True)`, a stable
descending sort by score. -/
noncomputable def sortByScore (scores : List (String × ℝ)) : List (String × ℝ) :=
  scores.mergeSort (fun p q => decide (q.2 ≤ p.2))

/-- Result bundle of `search` (`processing_time_ms`, wall-clock, is
not modelled). -/
structure SearchResult where
  index_uid : String
  query : String
  hits : List Doc
  total : Nat
  facet_distribution : List (String × List (String × Nat))

/-- `search`: resolve the index, tokenize the query, score (keeping
positive scores), filter when a nonempty filter dict is given (Python
truthiness of a dict), sort by descending score, count `total` before
pagination, slice `offset .. offset+limit`, map ids back to raw
documents, and compute facets over the full document set when a
nonempty facet list is requested.  The unused `sort` parameter of the
source is omitted; `offset` and `limit` are naturals, as produced by
the CLI (Python negative slicing is out of scope). -/
noncomputable def search (e : Engine) (uid query : String) (filters : Filters)
    (facets : List String) (limit offset : Nat) : Except Err SearchResult :=
  match alookup uid e.indexes with
  | none => .error .notFound
  | some _ =>
    let documents := docsOf e uid
    let terms := tokenize query
    let scores := scoredDocs e uid terms
    let filtered := if filters.isEmpty then scores else apply_filters scores documents filters
    let sorted_docs := sortByScore filtered
    let total := sorted_docs.length
    let hits_ids := ((sorted_docs.drop offset).take limit).map (fun p => p.1)
    let hits := hits_ids.map (fun did => (alookup did documents).getD [])
    let facet_dist := if facets.isEmpty then [] else compute_facets documents facets
    .ok { index_uid := uid, query := query, hits := hits, total := total,
          facet_distribution := facet_dist }

/-! ### Association-list lemmas -/

theorem alookup_upsert_self {κ β : Type} [DecidableEq κ] (k : κ) (v : β)
    (l : List (κ × β)) : alookup k (upsert k v l) = some v := by
  induction l with
  | nil => simp [upsert, alookup]
  | cons p rest ih =>
    obtain ⟨k₁, v₁⟩ := p
    by_cases h : k₁ = k
    · simp [upsert, h, alookup]
    · simp [upsert, h, alookup, ih]

theorem alookup_upsert_ne {κ β : Type} [DecidableEq κ] {k k₁ : κ} (v : β)
    (l : List (κ × β)) (hne : k₁ ≠ k) : alookup k₁ (upsert k v l) = alookup k₁ l := by
  have hk : ¬k = k₁ := fun h => hne h.symm
  induction l with
  | nil => simp [upsert, alookup, hk]
  | cons p rest ih =>
    obtain ⟨k₂, v₂⟩ := p
    by_cases h : k₂ = k
    · subst h
      simp [upsert, alookup, hk]
    · by_cases h₂ : k₂ = k₁ <;> simp [upsert, alookup, h, h₂, hne, ih]

theorem alookup_eq_none_iff {κ β : Type} [DecidableEq κ] (k : κ) (l : List (κ × β)) :
    alookup k l = none ↔ ∀ p ∈ l, p.1 ≠ k := by
  induction l with
  | nil => simp [alookup]
  | cons p rest ih =>
    obtain ⟨k₁, v₁⟩ := p
    by_cases h : k₁ = k <;> simp [alookup, h, ih]

theorem alookup_map_pair {α β : Type} [DecidableEq α] (g : α → β) {x : α} {l : List α}
    (hx : x ∈ l) : alookup x (l.map (fun a => (a, g a))) = some (g x) := by
  induction l with
  | nil => cases hx
  | cons a rest ih =>
    rcases List.mem_cons.mp hx with rfl | hx₁
    · simp [alookup]
    · by_cases h : a = x
      · subst h; simp [alookup]
      · simp [alookup, h, ih hx₁]

/-! ### Claim C8: filter matching -/

/-- C8: the filter match succeeds iff every (field, expected) pair
passes: an absent field fails the match, a list expectation requires
the document value to equal one of the elements under Python value
equality, any other expectation requires equality with the document
value, and all pairs are combined by conjunction; moreover a string
and an equal-looking number are never equal. -/
theorem C8_filter_match_semantics (doc : Doc) (filters : Filters) :
    (matches_filters doc filters = true ↔
      ∀ fv ∈ filters, ∃ dv, alookup fv.1 doc = some dv ∧
        (match fv.2 with
         | .list vs => ∃ v ∈ vs, pyEq dv v = true
         | other => pyEq dv other = true)) ∧
    (∀ s n, pyEq (Value.str s) (Value.int n) = false ∧
      pyEq (Value.int n) (Value.str s) = false) := by
  refine ⟨?_, fun s n => ⟨rfl, rfl⟩⟩
  simp only [matches_filters, List.all_eq_true]
  constructor
  · intro h fv hfv
    obtain ⟨f, exp⟩ := fv
    have h₁ := h ⟨f, exp⟩ hfv
    cases halk : alookup f doc with
    | none => rw [halk] at h₁; exact absurd h₁ (by simp)
    | some dv =>
      rw [halk] at h₁
      refine ⟨dv, rfl, ?_⟩
      cases exp with
      | list vs =>
        have h₂ : (vs.any fun v => pyEq dv v) = true := h₁
        simpa [List.any_eq_true] using h₂
      | str s => exact h₁
      | int n => exact h₁
      | bool bb => exact h₁
  · intro h fv hfv
    obtain ⟨f, exp⟩ := fv
    obtain ⟨dv, halk, hpass⟩ := h ⟨f, exp⟩ hfv
    rw [halk]
    cases exp with
    | list vs =>
      have h₂ : ∃ v ∈ vs, pyEq dv v = true := hpass
      show (vs.any fun v => pyEq dv v) = true
      simpa [List.any_eq_true] using h₂
    | str s => exact hpass
    | int n => exact hpass
    | bool bb => exact hpass

/-! ### Shared concrete states for witnesses and counterexamples -/

/-- The empty engine (fresh database, no indexes). -/
def emptyEngine : Engine := { indexes := [], index_documents := [], term_index := [] }

/-- An engine holding one index `books` with primary key `id`,
created at time 0. -/
def booksEngine : Engine :=
  (create_index emptyEngine "books" "id" none 0).toOption.getD emptyEngine

/-- The metadata of the `books` index as created. -/
def booksIdx : Index :=
  { uid := "books", name := "books", primary_key := "id",
    created_at := 0, updated_at := 0, total_documents := 0 }

/-! ### Claim C1: invalid document aborts the batch -/

theorem addDocsLoop_error (uid pk : String) :
    ∀ (docs : List Doc) (dt : List ((String × String) × Doc)) (ti : List (TermKey × List Nat)),
      (∃ d ∈ docs, docIdOf pk d = "") →
      addDocsLoop uid pk docs dt ti = .error .invalidDocument := by
  intro docs
  induction docs with
  | nil =>
    intro dt ti h
    obtain ⟨d, hd, _⟩ := h
    cases hd
  | cons d rest ih =>
    intro dt ti h
    by_cases hid : docIdOf pk d = ""
    · simp [addDocsLoop, hid]
    · obtain ⟨d₁, hd₁, hid₁⟩ := h
      rcases List.mem_cons.mp hd₁ with rfl | hmem
      · exact absurd hid₁ hid
      · simp only [addDocsLoop, hid, if_false]
        exact ih _ _ ⟨d₁, hmem, hid₁⟩

/-- C1 (amended): on an existing index, a batch containing a document
whose primary-key field is missing or stringifies to empty makes
`add_documents` raise InvalidDocument; processing of the remaining
documents is aborted, and because the whole call runs in one sqlite
transaction that the connection context manager rolls back on the
exception, documents written earlier in the same batch are discarded
and the store is left unchanged (the error outcome carries no new
state). -/
theorem C1_invalid_document_aborts (e : Engine) (uid : String) (idx : Index)
    (docs : List Doc) (now : Nat)
    (hidx : alookup uid e.indexes = some idx)
    (hbad : ∃ d ∈ docs, docIdOf idx.primary_key d = "") :
    add_documents e uid docs now = .error .invalidDocument := by
  simp only [add_documents, hidx]
  rw [addDocsLoop_error uid idx.primary_key docs e.index_documents e.term_index hbad]

/-- A valid first document of the failing batch. -/
def c1doc1 : Doc := [("id", Value.str "1"), ("title", Value.str "dune world")]

/-- A document with no primary-key field. -/
def c1bad : Doc := [("title", Value.str "missing key")]

theorem C1_witness :
    alookup "books" booksEngine.indexes = some booksIdx ∧
    (∃ d ∈ [c1doc1, c1bad], docIdOf booksIdx.primary_key d = "") ∧
    add_documents booksEngine "books" [c1doc1, c1bad] 5 = .error .invalidDocument :=
  ⟨rfl, ⟨c1bad, List.mem_cons_of_mem c1doc1 (List.mem_cons_self c1bad []), rfl⟩,
    C1_invalid_document_aborts booksEngine "books" booksIdx [c1doc1, c1bad] 5 rfl
      ⟨c1bad, List.mem_cons_of_mem c1doc1 (List.mem_cons_self c1bad []), rfl⟩⟩

/-- C1 counterexample: the batch `[c1doc1, c1bad]` raises
InvalidDocument, yet document "1" — written earlier in the same batch
— is not stored after the call: the transaction rollback leaves the
engine in its pre-call state, where the document is absent.  This
refutes the claim that earlier documents of the failed batch remain
stored. -/
theorem C1_counterexample :
    add_documents booksEngine "books" [c1doc1, c1bad] 5 = .error .invalidDocument ∧
    get_document booksEngine "books" "1" = .ok none :=
  ⟨rfl, rfl⟩

/-! ### Claim C4: the total_documents counter -/

/-- A document re-added twice under the same id. -/
def c4doc : Doc := [("id", Value.str "7"), ("title", Value.str "same doc")]

/-- Engine after the two ingestions of `c4doc`, step 1. -/
def c4E₁ : Engine :=
  (add_documents booksEngine "books" [c4doc] 1).toOption.getD booksEngine

/-- Engine after the two ingestions of `c4doc`, step 2. -/
def c4E₂ : Engine :=
  (add_documents c4E₁ "books" [c4doc] 2).toOption.getD booksEngine

/-- C4: `total_documents` is a maintained counter: every successful
ingestion adds exactly the batch length (even when the batch re-adds
existing ids), every deletion subtracts one floored at zero, and the
counter can therefore diverge from the true distinct-document count
(after re-adding the same id twice the counter reads 2 while one
document is stored). -/
theorem C4_total_documents_counter :
    (∀ (e : Engine) (uid : String) (idx : Index) (docs : List Doc) (now : Nat) (e₁ : Engine),
      alookup uid e.indexes = some idx →
      add_documents e uid docs now = .ok e₁ →
      alookup uid e₁.indexes =
        some { idx with total_documents := idx.total_documents + docs.length,
                        updated_at := now }) ∧
    (∀ (e : Engine) (uid doc_id : String) (idx : Index) (now : Nat) (e₁ : Engine),
      alookup uid e.indexes = some idx →
      delete_document e uid doc_id now = .ok e₁ →
      alookup uid e₁.indexes =
        some { idx with total_documents := idx.total_documents - 1, updated_at := now } ∧
      ((idx.total_documents - 1 : ℕ) : ℤ) = max 0 ((idx.total_documents : ℤ) - 1)) ∧
    (add_documents booksEngine "books" [c4doc] 1 = .ok c4E₁ ∧
      add_documents c4E₁ "books" [c4doc] 2 = .ok c4E₂ ∧
      (alookup "books" c4E₂.indexes).map Index.total_documents = some 2 ∧
      (docsOf c4E₂ "books").length = 1) := by
  refine ⟨?_, ?_, rfl, rfl, rfl, rfl⟩
  · intro e uid idx docs now e₁ hidx hadd
    simp only [add_documents, hidx] at hadd
    cases hloop : addDocsLoop uid idx.primary_key docs e.index_documents e.term_index with
    | error err => simp [hloop] at hadd
    | ok pair =>
      obtain ⟨dt, ti⟩ := pair
      simp only [hloop] at hadd
      obtain rfl : _ = e₁ := by injection hadd
      exact alookup_upsert_self _ _ _
  · intro e uid doc_id idx now e₁ hidx hdel
    simp only [delete_document, hidx] at hdel
    obtain rfl : _ = e₁ := by injection hdel
    exact ⟨alookup_upsert_self _ _ _, by omega⟩

theorem C4_witness :
    alookup "books" booksEngine.indexes = some booksIdx ∧
    add_documents booksEngine "books" [c4doc] 1 = .ok c4E₁ ∧
    alookup "books" c4E₁.indexes =
      some { booksIdx with total_documents := booksIdx.total_documents + 1, updated_at := 1 } :=
  ⟨rfl, rfl,
    C4_total_documents_counter.1 booksEngine "books" booksIdx [c4doc] 1 c4E₁ rfl rfl⟩

/-! ### Claim C5: the attribute setters -/

/-- C5 (amended): each of the three attribute setters replaces the
respective list of the index and fails NotFound when the uid is
absent; `updated_at` is left unchanged (the source never touches the
timestamp in these setters). -/
theorem C5_attribute_setters (e : Engine) (uid : String) (attrs : List String) :
    (∀ idx, alookup uid e.indexes = some idx →
      (∃ e₁, set_searchable_attrs e uid attrs = .ok e₁ ∧
        alookup uid e₁.indexes = some { idx with searchable_attrs := attrs }) ∧
      (∃ e₂, set_filterable_attrs e uid attrs = .ok e₂ ∧
        alookup uid e₂.indexes = some { idx with filterable_attrs := attrs }) ∧
      (∃ e₃, set_sortable_attrs e uid attrs = .ok e₃ ∧
        alookup uid e₃.indexes = some { idx with sortable_attrs := attrs }) ∧
      ({ idx with searchable_attrs := attrs } : Index).updated_at = idx.updated_at) ∧
    (alookup uid e.indexes = none →
      set_searchable_attrs e uid attrs = .error .notFound ∧
      set_filterable_attrs e uid attrs = .error .notFound ∧
      set_sortable_attrs e uid attrs = .error .notFound) := by
  constructor
  · intro idx hidx
    have h₁ : set_searchable_attrs e uid attrs =
        .ok { e with indexes := upsert uid { idx with searchable_attrs := attrs } e.indexes } := by
      simp only [set_searchable_attrs, hidx]
    have h₂ : set_filterable_attrs e uid attrs =
        .ok { e with indexes := upsert uid { idx with filterable_attrs := attrs } e.indexes } := by
      simp only [set_filterable_attrs, hidx]
    have h₃ : set_sortable_attrs e uid attrs =
        .ok { e with indexes := upsert uid { idx with sortable_attrs := attrs } e.indexes } := by
      simp only [set_sortable_attrs, hidx]
    exact ⟨⟨_, h₁, alookup_upsert_self _ _ _⟩, ⟨_, h₂, alookup_upsert_self _ _ _⟩,
      ⟨_, h₃, alookup_upsert_self _ _ _⟩, rfl⟩
  · intro habs
    refine ⟨?_, ?_, ?_⟩ <;>
      simp [set_searchable_attrs, set_filterable_attrs, set_sortable_attrs, habs]

theorem C5_witness :
    alookup "books" booksEngine.indexes = some booksIdx ∧
    (∃ e₁, set_searchable_attrs booksEngine "books" ["title"] = .ok e₁ ∧
      alookup "books" e₁.indexes = some { booksIdx with searchable_attrs := ["title"] }) :=
  ⟨rfl, (((C5_attribute_setters booksEngine "books" ["title"]).1 booksIdx rfl)).1⟩

/-- Engine after `set_searchable_attrs` on the books index. -/
def c5E₁ : Engine :=
  (set_searchable_attrs booksEngine "books" ["title"]).toOption.getD booksEngine

/-- C5 counterexample: the setter replaces the list, but the stored
`updated_at` still reads 0 (the creation time) afterwards, whatever
the call time: the source setters never write the timestamp, so the
claimed bump of `updated_at` does not happen. -/
theorem C5_counterexample :
    set_searchable_attrs booksEngine "books" ["title"] = .ok c5E₁ ∧
    (alookup "books" c5E₁.indexes).map Index.searchable_attrs = some [["title"]].head! ∧
    (alookup "books" c5E₁.indexes).map Index.updated_at = some 0 :=
  ⟨rfl, rfl, rfl⟩

/-! ### Claim C9: deletion of an absent document -/

/-- C9: on an existing index, deleting a doc id with no stored
document raises no error, still decrements `total_documents` by one
floored at zero, bumps `updated_at` to the call time, and leaves the
document table unchanged. -/
theorem C9_delete_absent_document (e : Engine) (uid doc_id : String) (idx : Index)
    (now : Nat)
    (hidx : alookup uid e.indexes = some idx)
    (habs : alookup (uid, doc_id) e.index_documents = none) :
    ∃ e₁, delete_document e uid doc_id now = .ok e₁ ∧
      alookup uid e₁.indexes =
        some { idx with total_documents := idx.total_documents - 1, updated_at := now } ∧
      ((idx.total_documents - 1 : ℕ) : ℤ) = max 0 ((idx.total_documents : ℤ) - 1) ∧
      e₁.index_documents = e.index_documents := by
  have hdel : delete_document e uid doc_id now =
      .ok { indexes := upsert uid
              { idx with total_documents := idx.total_documents - 1, updated_at := now }
              e.indexes,
            index_documents :=
              e.index_documents.filter (fun r => !(r.1 = (uid, doc_id) : Bool)),
            term_index :=
              e.term_index.filter (fun r => !(r.1.1 = uid && r.1.2.2.1 = doc_id)) } := by
    simp only [delete_document, hidx]
  refine ⟨_, hdel, alookup_upsert_self _ _ _, by omega, ?_⟩
  rw [List.filter_eq_self]
  intro r hr
  have hne := (alookup_eq_none_iff (uid, doc_id) e.index_documents).mp habs r hr
  simp [hne]

theorem C9_witness :
    alookup "books" booksEngine.indexes = some booksIdx ∧
    alookup ("books", "zzz") booksEngine.index_documents = none ∧
    (∃ e₁, delete_document booksEngine "books" "zzz" 7 = .ok e₁ ∧
      alookup "books" e₁.indexes =
        some { booksIdx with total_documents := booksIdx.total_documents - 1,
                             updated_at := 7 } ∧
      ((booksIdx.total_documents - 1 : ℕ) : ℤ) =
        max 0 ((booksIdx.total_documents : ℤ) - 1) ∧
      e₁.index_documents = booksEngine.index_documents) :=
  ⟨rfl, rfl, C9_delete_absent_document booksEngine "books" "zzz" booksIdx 7 rfl rfl⟩

/-! ### Claim C3: the BM25 arithmetic -/

theorem foldl_if_add {α : Type} (P Q : α → Prop) [DecidablePred P] [DecidablePred Q]
    (g : α → ℝ) :
    ∀ (l : List α) (s : ℝ),
      l.foldl (fun s x => if P x then s else if Q x then s + g x else s) s =
        s + ((l.filter (fun x => decide (¬P x ∧ Q x))).map g).sum := by
  intro l
  induction l with
  | nil => intro s; simp
  | cons x rest ih =>
    intro s
    by_cases hp : P x
    · simp [hp, ih]
    · by_cases hq : Q x
      · simp only [List.foldl_cons, if_neg hp, if_pos hq, ih, List.filter_cons]
        simp [hp, hq]
        ring
      · simp only [List.foldl_cons, if_neg hp, if_neg hq, ih, List.filter_cons]
        simp [hp, hq]

theorem termScore_eq (ti : List (TermKey × List Nat)) (uid : String) (idx : Index)
    (term : String) (doc : Doc) (s : ℝ) :
    termScore ti uid idx term doc s =
      s + ((doc.filter (fun fv =>
              decide (¬fv.1 = idx.primary_key ∧ 0 < (tokenize (pyStr fv.2)).count term))).map
            (fieldContribution (idfOf ti uid idx term) term)).sum := by
  simp only [termScore]
  exact foldl_if_add (fun fv => fv.1 = idx.primary_key)
    (fun fv => 0 < (tokenize (pyStr fv.2)).count term)
    (fieldContribution (idfOf ti uid idx term) term) doc s

theorem foldl_add_sum {α : Type} (T : α → ℝ) :
    ∀ (l : List α) (s : ℝ), l.foldl (fun s x => s + T x) s = s + (l.map T).sum := by
  intro l
  induction l with
  | nil => intro s; simp
  | cons x rest ih =>
    intro s
    simp only [List.foldl_cons, ih, List.map_cons, List.sum_cons]
    ring

theorem bm25_score_eq (e : Engine) (uid : String) (idx : Index) (terms : List String)
    (doc : Doc) (hidx : alookup uid e.indexes = some idx) :
    bm25_score e uid terms doc =
      (terms.map (fun term =>
        ((doc.filter (fun fv =>
            decide (¬fv.1 = idx.primary_key ∧ 0 < (tokenize (pyStr fv.2)).count term))).map
          (fieldContribution (idfOf e.term_index uid idx term) term)).sum)).sum := by
  simp only [bm25_score, hidx]
  have hfun : (fun score term => termScore e.term_index uid idx term doc score) =
      (fun score term => score +
        ((doc.filter (fun fv =>
            decide (¬fv.1 = idx.primary_key ∧ 0 < (tokenize (pyStr fv.2)).count term))).map
          (fieldContribution (idfOf e.term_index uid idx term) term)).sum) := by
    funext score term
    rw [termScore_eq]
  rw [hfun, foldl_add_sum]
  simp

theorem fieldWeight_eq (f : String) :
    ((fieldWeight f : ℚ) : ℝ) = if f = "title" then 3 else if f = "description" then 2 else 1 := by
  have d₁ : ¬("title" : String) = "description" := by decide
  have d₂ : ¬("title" : String) = "body" := by decide
  have d₃ : ¬("description" : String) = "body" := by decide
  have d₄ : ¬("description" : String) = "title" := by decide
  have d₅ : ¬("body" : String) = "title" := by decide
  have d₆ : ¬("body" : String) = "description" := by decide
  by_cases h₁ : f = "title"
  · subst h₁; norm_num [fieldWeight, field_weights, alookup]
  · by_cases h₂ : f = "description"
    · subst h₂; norm_num [fieldWeight, field_weights, alookup, d₁, d₄]
    · by_cases h₃ : f = "body"
      · subst h₃; norm_num [fieldWeight, field_weights, alookup, d₂, d₃, d₅, d₆]
      · have e₁ : ¬"title" = f := fun h => h₁ h.symm
        have e₂ : ¬"description" = f := fun h => h₂ h.symm
        have e₃ : ¬"body" = f := fun h => h₃ h.symm
        simp [fieldWeight, field_weights, alookup, e₁, e₂, e₃, h₁, h₂]

theorem fieldContribution_spelled (idf : ℝ) (term : String) (fv : String × Value) :
    fieldContribution idf term fv =
      (if fv.1 = "title" then (3 : ℝ) else if fv.1 = "description" then 2 else 1) * idf *
        ((1.5 + 1) * ((tokenize (pyStr fv.2)).count term : ℝ) /
          (((tokenize (pyStr fv.2)).count term : ℝ) +
            1.5 * (1 - 0.75 + 0.75 * ((tokenize (pyStr fv.2)).length : ℝ)))) := by
  simp only [fieldContribution, fieldWeight_eq]
  norm_num [k1, b]

/-- C3: the BM25 score of a document for the query terms is the sum,
over each occurrence of each query term, of the per-field
contributions `weight * idf * (k1+1)*tf / (tf + k1*(1 - b + b*fieldLen))`
over the non-primary-key fields containing the term, with k1 = 1.5,
b = 0.75, weight 3 for title, 2 for description and 1 otherwise,
fieldLen the raw token count of the field, and
`idf = ln(N / max(1, df))` for N the total_documents counter with 1
substituted when it reads 0 and df the number of distinct documents
holding a posting for the term in any field; idf is unclamped and is
strictly negative whenever df exceeds N. -/
theorem C3_bm25_formula (e : Engine) (uid : String) (idx : Index) (terms : List String)
    (doc : Doc) (hidx : alookup uid e.indexes = some idx) :
    (bm25_score e uid terms doc =
      (terms.map (fun term =>
        ((doc.filter (fun fv =>
            decide (¬fv.1 = idx.primary_key ∧ 0 < (tokenize (pyStr fv.2)).count term))).map
          (fun fv =>
            (if fv.1 = "title" then (3 : ℝ) else if fv.1 = "description" then 2 else 1) *
              Real.log
                (((if idx.total_documents = 0 then 1 else idx.total_documents : ℕ) : ℝ) /
                  ((max 1 (docFreq e.term_index uid term) : ℕ) : ℝ)) *
              ((1.5 + 1) * ((tokenize (pyStr fv.2)).count term : ℝ) /
                (((tokenize (pyStr fv.2)).count term : ℝ) +
                  1.5 * (1 - 0.75 + 0.75 * ((tokenize (pyStr fv.2)).length : ℝ)))))).sum)).sum) ∧
    (∀ term, (if idx.total_documents = 0 then 1 else idx.total_documents) <
        docFreq e.term_index uid term →
      Real.log
        (((if idx.total_documents = 0 then 1 else idx.total_documents : ℕ) : ℝ) /
          ((max 1 (docFreq e.term_index uid term) : ℕ) : ℝ)) < 0) := by
  constructor
  · rw [bm25_score_eq e uid idx terms doc hidx]
    apply congrArg List.sum
    apply List.map_congr_left
    intro term _
    apply congrArg List.sum
    apply List.map_congr_left
    intro fv _
    rw [fieldContribution_spelled]
    simp only [idfOf, nDocs]
    norm_cast
  · intro term hlt
    set N : ℕ := if idx.total_documents = 0 then 1 else idx.total_documents with hN
    set df : ℕ := docFreq e.term_index uid term with hdf
    have hN1 : 1 ≤ N := by
      rw [hN]; split <;> omega
    have hmax : max 1 df = df := by omega
    rw [hmax]
    have h₀ : (0 : ℝ) < (N : ℝ) := by exact_mod_cast Nat.lt_of_lt_of_le Nat.zero_lt_one hN1
    have h₁ : (0 : ℝ) < (df : ℝ) := by exact_mod_cast (show 0 < df by omega)
    apply Real.log_neg (div_pos h₀ h₁)
    rw [div_lt_one h₁]
    exact_mod_cast hlt

theorem C3_witness :
    alookup "books" booksEngine.indexes = some booksIdx ∧
    bm25_score booksEngine "books" ["dune"] [] = 0 := by
  refine ⟨rfl, ?_⟩
  have h := (C3_bm25_formula booksEngine "books" booksIdx ["dune"] [] rfl).1
  simpa using h

/-! ### Claim C2: postings after a document write -/

theorem alookup_termFold (uid did f₀ : String) (pos : List Nat) :
    ∀ (ts : List String) (ti : List (TermKey × List Nat)) (u₁ t₁ d₁ f₁ : String),
      alookup (u₁, t₁, d₁, f₁)
          (ts.foldl (fun ti t => upsert (uid, t, did, f₀) pos ti) ti) =
        if u₁ = uid ∧ d₁ = did ∧ f₁ = f₀ ∧ t₁ ∈ ts then some pos
        else alookup (u₁, t₁, d₁, f₁) ti := by
  intro ts
  induction ts with
  | nil => intro ti u₁ t₁ d₁ f₁; simp
  | cons t rest ih =>
    intro ti u₁ t₁ d₁ f₁
    rw [List.foldl_cons, ih]
    by_cases hc : u₁ = uid ∧ d₁ = did ∧ f₁ = f₀ ∧ t₁ ∈ rest
    · obtain ⟨hu, hd, hf, hm⟩ := hc
      rw [if_pos ⟨hu, hd, hf, hm⟩, if_pos ⟨hu, hd, hf, List.mem_cons_of_mem t hm⟩]
    · rw [if_neg hc]
      by_cases hkey : ((u₁, t₁, d₁, f₁) : TermKey) = (uid, t, did, f₀)
      · have hu : u₁ = uid := congrArg Prod.fst hkey
        have ht : t₁ = t := congrArg (fun p : TermKey => p.2.1) hkey
        have hd : d₁ = did := congrArg (fun p : TermKey => p.2.2.1) hkey
        have hf : f₁ = f₀ := congrArg (fun p : TermKey => p.2.2.2) hkey
        rw [hkey, alookup_upsert_self,
          if_pos ⟨hu, hd, hf, by rw [ht]; exact List.mem_cons_self t rest⟩]
      · have hnc : ¬(u₁ = uid ∧ d₁ = did ∧ f₁ = f₀ ∧ t₁ ∈ t :: rest) := by
          rintro ⟨hu, hd, hf, hm⟩
          rcases List.mem_cons.mp hm with ht | hmem
          · exact hkey (by rw [hu, ht, hd, hf])
          · exact hc ⟨hu, hd, hf, hmem⟩
        rw [alookup_upsert_ne pos ti hkey, if_neg hnc]

theorem alookup_indexDocTerms (uid pk did : String) :
    ∀ (doc : Doc) (ti : List (TermKey × List Nat)) (u₁ t₁ d₁ f₁ : String),
      (doc.map Prod.fst).Nodup →
      alookup (u₁, t₁, d₁, f₁) (indexDocTerms uid pk did doc ti) =
        match alookup f₁ doc with
        | some v =>
          if u₁ = uid ∧ d₁ = did ∧ ¬f₁ = pk ∧ t₁ ∈ tokenize (pyStr v)
          then some (List.range (tokenize (pyStr v)).length)
          else alookup (u₁, t₁, d₁, f₁) ti
        | none => alookup (u₁, t₁, d₁, f₁) ti := by
  intro doc
  induction doc with
  | nil => intro ti u₁ t₁ d₁ f₁ _; simp [indexDocTerms, alookup]
  | cons p rest ih =>
    intro ti u₁ t₁ d₁ f₁ hnd
    obtain ⟨f₀, v₀⟩ := p
    have hnd₁ : (rest.map Prod.fst).Nodup := (List.nodup_cons.mp (by simpa using hnd)).2
    have hf₀ : f₀ ∉ rest.map Prod.fst := (List.nodup_cons.mp (by simpa using hnd)).1
    have hnone : f₀ = f₁ → alookup f₁ rest = none := by
      rintro rfl
      rw [alookup_eq_none_iff]
      intro q hq hqeq
      exact hf₀ (hqeq ▸ List.mem_map_of_mem Prod.fst hq)
    by_cases hpk : f₀ = pk
    · have hred : indexDocTerms uid pk did ((f₀, v₀) :: rest) ti =
          indexDocTerms uid pk did rest ti := by
        simp [indexDocTerms, List.foldl_cons, hpk]
      rw [hred, ih ti u₁ t₁ d₁ f₁ hnd₁]
      by_cases hff : f₀ = f₁
      · rw [hnone hff]
        subst hff
        simp [alookup, hpk]
      · simp [alookup, hff]
    · have hred : indexDocTerms uid pk did ((f₀, v₀) :: rest) ti =
          indexDocTerms uid pk did rest
            ((tokenize (pyStr v₀)).dedup.foldl
              (fun ti t =>
                upsert (uid, t, did, f₀) (List.range (tokenize (pyStr v₀)).length) ti)
              ti) := by
        simp [indexDocTerms, List.foldl_cons, hpk]
      rw [hred, ih _ u₁ t₁ d₁ f₁ hnd₁]
      by_cases hff : f₀ = f₁
      · rw [hnone hff]
        subst hff
        rw [alookup_termFold]
        simp [alookup, hpk, List.mem_dedup]
      · have hL3 : alookup (u₁, t₁, d₁, f₁)
            ((tokenize (pyStr v₀)).dedup.foldl
              (fun ti t =>
                upsert (uid, t, did, f₀) (List.range (tokenize (pyStr v₀)).length) ti)
              ti) = alookup (u₁, t₁, d₁, f₁) ti := by
          rw [alookup_termFold]
          exact if_neg (fun hcond => hff hcond.2.2.1.symm)
        rw [hL3]
        have hcons : alookup f₁ (((f₀, v₀) :: rest : Doc)) = alookup f₁ rest := by
          simp [alookup, hff]
        rw [hcons]

theorem addDocsLoop_single (uid pk : String) (doc : Doc)
    (dt : List ((String × String) × Doc)) (ti : List (TermKey × List Nat))
    (hne : ¬docIdOf pk doc = "") :
    addDocsLoop uid pk [doc] dt ti =
      .ok (upsert (uid, docIdOf pk doc) doc dt,
           indexDocTerms uid pk (docIdOf pk doc) doc ti) := by
  simp [addDocsLoop, hne]

/-- C2 (amended): a document write regenerates exactly the postings
of (term, field) pairs occurring in the new version — for every
non-primary-key field of the new document and every term of its
tokenization, the posting holds the full position list of the new
field value — while every other posting key of that (index, doc id),
in particular postings under terms dropped from the new version, is
left exactly as before the write (stale postings are never purged).
The raw document is overwritten. -/
theorem C2_postings_after_write (e : Engine) (uid : String) (idx : Index) (doc : Doc)
    (now : Nat) (e₁ : Engine)
    (hidx : alookup uid e.indexes = some idx)
    (hnd : (doc.map Prod.fst).Nodup)
    (hadd : add_documents e uid [doc] now = .ok e₁) :
    alookup (uid, docIdOf idx.primary_key doc) e₁.index_documents = some doc ∧
    (∀ t f, alookup (uid, t, docIdOf idx.primary_key doc, f) e₁.term_index =
      match alookup f doc with
      | some v =>
        if ¬f = idx.primary_key ∧ t ∈ tokenize (pyStr v)
        then some (List.range (tokenize (pyStr v)).length)
        else alookup (uid, t, docIdOf idx.primary_key doc, f) e.term_index
      | none => alookup (uid, t, docIdOf idx.primary_key doc, f) e.term_index) := by
  by_cases hid : docIdOf idx.primary_key doc = ""
  · have herr : add_documents e uid [doc] now = .error .invalidDocument := by
      simp only [add_documents, hidx]
      rw [addDocsLoop_error uid idx.primary_key [doc] e.index_documents e.term_index
        ⟨doc, List.mem_cons_self doc [], hid⟩]
    rw [herr] at hadd
    cases hadd
  · simp only [add_documents, hidx, addDocsLoop_single uid idx.primary_key doc
      e.index_documents e.term_index hid] at hadd
    obtain rfl : _ = e₁ := by injection hadd
    constructor
    · exact alookup_upsert_self _ _ _
    · intro t f
      rw [alookup_indexDocTerms uid idx.primary_key (docIdOf idx.primary_key doc) doc
        e.term_index uid t (docIdOf idx.primary_key doc) f hnd]
      cases halk : alookup f doc with
      | none => rfl
      | some v => simp

/-- First version of the document: title contains "hello". -/
def c2docA : Doc := [("id", Value.str "1"), ("title", Value.str "hello world")]

/-- Second version of the same document: "hello" is dropped. -/
def c2docB : Doc := [("id", Value.str "1"), ("title", Value.str "goodbye world")]

/-- Engine after writing the first version. -/
def c2E₁ : Engine :=
  (add_documents booksEngine "books" [c2docA] 1).toOption.getD booksEngine

/-- Engine after overwriting with the second version. -/
def c2E₂ : Engine :=
  (add_documents c2E₁ "books" [c2docB] 2).toOption.getD booksEngine

/-- C2 counterexample: after overwriting document "1" so that its
title no longer contains "hello", the posting
(books, hello, 1, title) from the first version still sits in the
term index — a (term, field) pair absent from the current document
version persists, refuting the claimed invariant. -/
theorem C2_counterexample :
    add_documents booksEngine "books" [c2docA] 1 = .ok c2E₁ ∧
    add_documents c2E₁ "books" [c2docB] 2 = .ok c2E₂ ∧
    alookup ("books", "1") c2E₂.index_documents = some c2docB ∧
    tokenize (pyStr (Value.str "goodbye world")) = ["goodbye", "world"] ∧
    "hello" ∉ tokenize (pyStr (Value.str "goodbye world")) ∧
    alookup ("books", "hello", "1", "title") c2E₂.term_index = some [0, 1] :=
  ⟨rfl, rfl, rfl, rfl, by decide, rfl⟩

theorem C2_witness :
    alookup "books" booksEngine.indexes = some booksIdx ∧
    (c2docA.map Prod.fst).Nodup ∧
    add_documents booksEngine "books" [c2docA] 1 = .ok c2E₁ ∧
    alookup ("books", docIdOf booksIdx.primary_key c2docA) c2E₁.index_documents =
      some c2docA :=
  ⟨rfl, by decide, rfl,
    (C2_postings_after_write booksEngine "books" booksIdx c2docA 1 c2E₁ rfl
      (by decide) rfl).1⟩

/-! ### Search pipeline lemmas -/

theorem search_eq_ok (e : Engine) (uid query : String) (filters : Filters)
    (facets : List String) (limit offset : Nat) (idx : Index)
    (hidx : alookup uid e.indexes = some idx) :
    search e uid query filters facets limit offset =
      .ok { index_uid := uid, query := query,
            hits := ((((sortByScore
                (if filters.isEmpty then scoredDocs e uid (tokenize query)
                 else apply_filters (scoredDocs e uid (tokenize query)) (docsOf e uid)
                   filters)).drop offset).take limit).map (fun p => p.1)).map
              (fun did => (alookup did (docsOf e uid)).getD []),
            total := (sortByScore
                (if filters.isEmpty then scoredDocs e uid (tokenize query)
                 else apply_filters (scoredDocs e uid (tokenize query)) (docsOf e uid)
                   filters)).length,
            facet_distribution :=
              if facets.isEmpty then [] else compute_facets (docsOf e uid) facets } := by
  simp only [search, hidx]

theorem scoredDocs_of_no_terms (e : Engine) (uid : String) (idx : Index)
    (hidx : alookup uid e.indexes = some idx) :
    scoredDocs e uid [] = [] := by
  apply List.filter_eq_nil_iff.mpr
  intro p hp
  obtain ⟨q, _, rfl⟩ := List.mem_map.mp hp
  intro hdec
  rw [decide_eq_true_iff] at hdec
  have hzero : bm25_score e uid [] q.2 = 0 := by simp [bm25_score, hidx]
  rw [hzero] at hdec
  exact lt_irrefl 0 hdec

theorem search_ok_of_no_terms (e : Engine) (uid query : String) (filters : Filters)
    (facets : List String) (limit offset : Nat) (idx : Index)
    (hidx : alookup uid e.indexes = some idx) (htok : tokenize query = []) :
    search e uid query filters facets limit offset =
      .ok { index_uid := uid, query := query, hits := [], total := 0,
            facet_distribution :=
              if facets.isEmpty then [] else compute_facets (docsOf e uid) facets } := by
  rw [search_eq_ok e uid query filters facets limit offset idx hidx, htok,
    scoredDocs_of_no_terms e uid idx hidx]
  have hfe : (if filters.isEmpty then ([] : List (String × ℝ))
      else apply_filters [] (docsOf e uid) filters) = [] := by
    cases filters.isEmpty <;> simp [apply_filters]
  rw [hfe]
  simp [sortByScore]

/-! ### Claim C6: total and pagination -/

/-- C6: `total` counts the documents surviving scoring (score > 0)
and filtering, before pagination; the hits are the offset/limit slice
of the score-descending sorted survivor list, mapped back to raw
documents; an offset at or beyond the survivor count yields an empty
hit list with no error; and `total` does not depend on the offset —
any other offset gives a successful result with the same total. -/
theorem C6_total_and_pagination (e : Engine) (uid query : String) (filters : Filters)
    (facets : List String) (limit offset : Nat) (r : SearchResult)
    (h : search e uid query filters facets limit offset = .ok r) :
    r.total = (if filters.isEmpty then scoredDocs e uid (tokenize query)
        else apply_filters (scoredDocs e uid (tokenize query)) (docsOf e uid)
          filters).length ∧
    r.hits = ((((sortByScore
        (if filters.isEmpty then scoredDocs e uid (tokenize query)
         else apply_filters (scoredDocs e uid (tokenize query)) (docsOf e uid)
           filters)).drop offset).take limit).map (fun p => p.1)).map
      (fun did => (alookup did (docsOf e uid)).getD []) ∧
    (r.total ≤ offset → r.hits = []) ∧
    (∀ offset₂, ∃ r₂, search e uid query filters facets limit offset₂ = .ok r₂ ∧
      r₂.total = r.total) := by
  cases hidx : alookup uid e.indexes with
  | none => rw [search, hidx] at h; cases h
  | some idx =>
    rw [search_eq_ok e uid query filters facets limit offset idx hidx] at h
    obtain rfl : _ = r := by injection h
    refine ⟨by simp [sortByScore, List.length_mergeSort], rfl, ?_, ?_⟩
    · intro hle
      have hdrop : (sortByScore
          (if filters.isEmpty then scoredDocs e uid (tokenize query)
           else apply_filters (scoredDocs e uid (tokenize query)) (docsOf e uid)
             filters)).drop offset = [] :=
        List.drop_eq_nil_of_le hle
      simp only [SearchResult.hits, hdrop, List.take_nil, List.map_nil]
    · intro offset₂
      exact ⟨_, search_eq_ok e uid query filters facets limit offset₂ idx hidx, rfl⟩

/-- The concrete result of the C6 witness search. -/
def c6R : SearchResult :=
  { index_uid := "books", query := "dune", hits := [], total := 0,
    facet_distribution := [] }

theorem C6_witness :
    search booksEngine "books" "dune" [] [] 20 5 = .ok c6R ∧
    c6R.total ≤ 5 ∧ c6R.hits = [] := by
  have hdocs : docsOf booksEngine "books" = [] := rfl
  have hs : search booksEngine "books" "dune" [] [] 20 5 = .ok c6R := by
    rw [search_eq_ok booksEngine "books" "dune" [] [] 20 5 booksIdx rfl]
    have hscored : scoredDocs booksEngine "books" (tokenize "dune") = [] := by
      simp [scoredDocs, hdocs]
    simp [hscored, sortByScore, c6R]
  exact ⟨hs, by decide,
    (C6_total_and_pagination booksEngine "books" "dune" [] [] 20 5 c6R hs).2.2.1
      (by decide)⟩

/-! ### Claim C7: facet distributions are global -/

theorem bump_sum (k : String) :
    ∀ m : List (String × Nat), ((bump k m).map Prod.snd).sum = (m.map Prod.snd).sum + 1 := by
  intro m
  induction m with
  | nil => simp [bump]
  | cons p rest ih =>
    obtain ⟨k₁, c⟩ := p
    by_cases h : k₁ = k
    · simp [bump, h]
      omega
    · simp [bump, h, ih]
      omega

theorem facetFold_sum (f : String) :
    ∀ (docs : List (String × Doc)) (acc : List (String × Nat)),
      (((docs.foldl (fun acc p =>
          match alookup f p.2 with
          | none => acc
          | some v => bump (pyStr v) acc) acc).map Prod.snd).sum) =
        (acc.map Prod.snd).sum +
          (docs.filter (fun p => (alookup f p.2).isSome)).length := by
  intro docs
  induction docs with
  | nil => intro acc; simp
  | cons p rest ih =>
    intro acc
    rw [List.foldl_cons]
    cases halk : alookup f p.2 with
    | none =>
      simp only [halk]
      rw [ih]
      simp [halk]
    | some v =>
      simp only [halk]
      rw [ih, bump_sum]
      simp [halk]
      omega

theorem facetCounts_sum (docs : List (String × Doc)) (f : String) :
    ((facetCounts docs f).map Prod.snd).sum =
      (docs.filter (fun p => (alookup f p.2).isSome)).length := by
  have h := facetFold_sum f docs []
  simpa [facetCounts] using h

/-- C7: when facets are requested, the facet distribution is computed
over the entire current document set of the index: it equals
`compute_facets` of all documents, each requested field maps to the
counts over the full set, those counts sum to the number of documents
of the index containing the field, and the distribution is identical
whatever query and filters are supplied. -/
theorem C7_facets_over_full_index (e : Engine) (uid query : String) (filters : Filters)
    (fcts : List String) (limit offset : Nat) (r : SearchResult)
    (hfc : fcts ≠ [])
    (h : search e uid query filters fcts limit offset = .ok r) :
    r.facet_distribution = compute_facets (docsOf e uid) fcts ∧
    (∀ f ∈ fcts, alookup f r.facet_distribution = some (facetCounts (docsOf e uid) f) ∧
      ((facetCounts (docsOf e uid) f).map Prod.snd).sum =
        ((docsOf e uid).filter (fun p => (alookup f p.2).isSome)).length) ∧
    (∀ (query₂ : String) (filters₂ : Filters) (r₂ : SearchResult),
      search e uid query₂ filters₂ fcts limit offset = .ok r₂ →
      r₂.facet_distribution = r.facet_distribution) := by
  cases hidx : alookup uid e.indexes with
  | none => rw [search, hidx] at h; cases h
  | some idx =>
    have hisempty : fcts.isEmpty = false := by
      cases fcts with
      | nil => exact absurd rfl hfc
      | cons a l => rfl
    rw [search_eq_ok e uid query filters fcts limit offset idx hidx] at h
    obtain rfl : _ = r := by injection h
    refine ⟨by simp [hisempty], ?_, ?_⟩
    · intro f hf
      constructor
      · simp only [SearchResult.facet_distribution, hisempty, Bool.false_eq_true,
          if_false, compute_facets]
        exact alookup_map_pair (facetCounts (docsOf e uid)) hf
      · exact facetCounts_sum (docsOf e uid) f
    · intro query₂ filters₂ r₂ h₂
      rw [search_eq_ok e uid query₂ filters₂ fcts limit offset idx hidx] at h₂
      obtain rfl : _ = r₂ := by injection h₂
      rfl

/-! ### Claim C10: queries with no terms -/

/-- C10: when the query tokenizes to no terms, every document of the
index scores 0, the score-0 documents are dropped before filtering,
and search succeeds with total 0 and an empty hit list, for any
filters, limit and offset. -/
theorem C10_no_terms_empty_result (e : Engine) (uid query : String) (idx : Index)
    (filters : Filters) (fcts : List String) (limit offset : Nat)
    (hidx : alookup uid e.indexes = some idx)
    (htok : tokenize query = []) :
    (∀ p ∈ docsOf e uid, bm25_score e uid (tokenize query) p.2 = 0) ∧
    scoredDocs e uid (tokenize query) = [] ∧
    (∃ r, search e uid query filters fcts limit offset = .ok r ∧
      r.total = 0 ∧ r.hits = []) := by
  refine ⟨?_, ?_, ?_⟩
  · intro p _
    rw [htok]
    simp [bm25_score, hidx]
  · rw [htok]
    exact scoredDocs_of_no_terms e uid idx hidx
  · exact ⟨_, search_ok_of_no_terms e uid query filters fcts limit offset idx hidx htok,
      rfl, rfl⟩

/-- Engine with one document whose title is "dune world". -/
def c10E : Engine :=
  (add_documents booksEngine "books"
    [[("id", Value.str "1"), ("title", Value.str "dune world")]] 1).toOption.getD
    booksEngine

/-- The books index after one ingestion at time 1. -/
def c10Idx : Index :=
  { uid := "books", name := "books", primary_key := "id",
    created_at := 0, updated_at := 1, total_documents := 1 }

theorem C10_witness :
    alookup "books" c10E.indexes = some c10Idx ∧
    tokenize "on the at" = [] ∧
    (∃ r, search c10E "books" "on the at" [] [] 20 0 = .ok r ∧
      r.total = 0 ∧ r.hits = []) :=
  ⟨rfl, rfl,
    (C10_no_terms_empty_result c10E "books" "on the at" c10Idx [] [] 20 0 rfl rfl).2.2⟩

/-- The concrete result of the C7 witness search: facet counts of
"title" over the one stored document. -/
def c7R : SearchResult :=
  { index_uid := "books", query := "the", hits := [], total := 0,
    facet_distribution := [("title", [("dune world", 1)])] }

theorem C7_witness :
    (["title"] : List String) ≠ [] ∧
    search c10E "books" "the" [] ["title"] 20 0 = .ok c7R ∧
    c7R.facet_distribution = compute_facets (docsOf c10E "books") ["title"] ∧
    ((facetCounts (docsOf c10E "books") "title").map Prod.snd).sum =
      ((docsOf c10E "books").filter (fun p => (alookup "title" p.2).isSome)).length := by
  have hs : search c10E "books" "the" [] ["title"] 20 0 = .ok c7R := by
    rw [search_ok_of_no_terms c10E "books" "the" [] ["title"] 20 0 c10Idx rfl rfl]
    rfl
  have h := C7_facets_over_full_index c10E "books" "the" [] ["title"] 20 0 c7R
    (by simp) hs
  exact ⟨by simp, hs, h.1, (h.2.1 "title" (List.mem_cons_self "title" [])).2⟩

end Meili
